import Mathlib

/-!
Verification of the SolidJS `useChat` session controller
(`packages/solid/src/use-chat.ts`).

The controller owns a chat session's message history, drives requests
through a streaming transport, and decides whether to auto-continue when
the assistant's last turn consists of resolved tool calls.  Pure data
manipulation (message updates, guard conditions) is embedded directly
from the source; the streaming transport (`callChatApi`, a different
package) and the reactive LRU cache are modelled from the specification,
as noted on each definition.
-/

set_option maxRecDepth 10000

namespace UseChat

/-- Message roles (`'system' | 'user' | 'assistant' | 'data'`). -/
inductive Role where
  | system
  | user
  | assistant
  | data
  deriving DecidableEq, Repr

/-- State of a tool invocation (`'call' | 'result'`; the transient
`'partial-call'` state never reaches the controller logic embedded here). -/
inductive TIState where
  | call
  | result
  deriving DecidableEq, Repr

/-- A tool invocation attached to an assistant message.  The TypeScript
`result` field is optional; `'result' in toolInvocation` is `result.isSome`. -/
structure ToolInvocation where
  state : TIState
  toolCallId : String
  toolName : String
  args : String
  step : Option Nat
  result : Option String
  deriving DecidableEq, Repr

/-- A chat message.  Fields not consulted by the controller logic
(attachments, annotations, data payload) are elided. -/
structure Message where
  id : String
  createdAt : Nat
  role : Role
  content : String
  toolInvocations : Option (List ToolInvocation)
  deriving DecidableEq, Repr

/-- Modelled from the spec: `extractMaxToolInvocationStep` (from the
`ui-utils` package, not under `src/`): the maximum `step` among the tool
invocations (a missing step counts as 0), or `none` when the invocation
list itself is absent. -/
def extractMaxToolInvocationStep : Option (List ToolInvocation) → Option Nat
  | none => none
  | some toolInvocations =>
      some (toolInvocations.foldl (fun mx ti => max mx (ti.step.getD 0)) 0)

/-- `isAssistantMessageWithCompletedToolCalls` (use-chat.ts lines 533-540):
assistant role, at least one tool invocation, and every invocation has a
result. -/
def isAssistantMessageWithCompletedToolCalls (message : Message) : Bool :=
  message.role == .assistant &&
    match message.toolInvocations with
    | none => false
    | some toolInvocations =>
        decide (0 < toolInvocations.length) &&
          toolInvocations.all fun toolInvocation => toolInvocation.result.isSome

/-! ## Streaming request executor (`processStreamedResponse`, lines 114-203)

The stream layer (`callChatApi`, from the `ui-utils` package, not under
`src/`) is modelled from the spec as an outcome oracle: for a given request
list it yields an ordered sequence of `onUpdate` events and then completes,
fails, or is aborted.  The bodies of the callbacks it invokes (`onUpdate`,
`restoreMessagesOnFailure`) are embedded from the source. -/

/-- One `onUpdate` event from the stream layer: a candidate message and the
`replaceLastMessage` flag. -/
structure Update where
  message : Message
  replaceLastMessage : Bool
  deriving DecidableEq, Repr

/-- Modelled from the spec: outcome of one streamed request (§4.2, §9 of the
spec: `Completed | Failed | Aborted`), carrying the `onUpdate` events that
were delivered before the stream ended. -/
inductive TransportOutcome where
  | success (updates : List Update)
  | failure (updates : List Update) (err : String)
  | aborted (updates : List Update)
  deriving DecidableEq, Repr

/-- Modelled from the spec: the transport as a deterministic oracle from the
request's message list to its outcome. -/
def Transport : Type := List Message → TransportOutcome

/-- Observable effects of one streamed request, in order: `publish` is a call
to `mutate` (writing the session cache), `netCall` is the network call to the
endpoint. -/
inductive Ev where
  | publish (messages : List Message)
  | netCall (messages : List Message)
  deriving DecidableEq, Repr

/-- The list published by the `onUpdate` callback (lines 185-191): the request
list (minus its last element when `replaceLastMessage`) with the candidate
message appended. -/
def applyUpdate (reqMessages : List Message) (u : Update) : List Message :=
  (if u.replaceLastMessage then reqMessages.dropLast else reqMessages) ++ [u.message]

/-- How `processStreamedResponse` ends: normally, with a thrown error, or
with a thrown `AbortError`. -/
inductive ProcOutcome where
  | ok
  | errored (err : String)
  | abortError
  deriving DecidableEq, Repr

/-- `processStreamedResponse` (lines 114-203) as its trace of observable
effects plus the reported outcome:
1. optimistic `mutate(chatRequest.messages)` (line 137);
2. the network call via `callChatApi` (line 163);
3. one `mutate` per `onUpdate` event (lines 185-196);
4. on failure, `restoreMessagesOnFailure` re-publishes the pre-request
   snapshot unless `keepLastMessageOnError` (lines 179-183); on abort only
   the stream read unwinds (spec §4.2.6: streamed tokens are kept). -/
def processStreamedResponse (keepLastMessageOnError : Bool) (transport : Transport)
    (previousMessages reqMessages : List Message) : List Ev × ProcOutcome :=
  match transport reqMessages with
  | .success updates =>
      (Ev.publish reqMessages :: Ev.netCall reqMessages ::
        updates.map (fun u => Ev.publish (applyUpdate reqMessages u)), .ok)
  | .failure updates err =>
      (Ev.publish reqMessages :: Ev.netCall reqMessages ::
        updates.map (fun u => Ev.publish (applyUpdate reqMessages u)) ++
          (if keepLastMessageOnError then [] else [Ev.publish previousMessages]),
       .errored err)
  | .aborted updates =>
      (Ev.publish reqMessages :: Ev.netCall reqMessages ::
        updates.map (fun u => Ev.publish (applyUpdate reqMessages u)), .abortError)

/-- The list published by an effect, when it is a `mutate` call. -/
def publishedList : Ev → Option (List Message)
  | .publish messages => some messages
  | .netCall _ => none

/-- The session's message list after a trace: the last list published via
`mutate` (the optimistic publish guarantees there always is one). -/
def lastPublished (trace : List Ev) (fallback : List Message) : List Message :=
  ((trace.filterMap publishedList).getLast?).getD fallback

/-- The list left behind by the stream's `onUpdate` events alone: the last
update applied to the request list, or the request list itself (the
optimistic publish) when no update arrived. -/
def streamedList (reqMessages : List Message) (updates : List Update) : List Message :=
  match updates.getLast? with
  | none => reqMessages
  | some u => applyUpdate reqMessages u

/-! ## Session controller state machine (`useChat`, lines 218-526) -/

/-- Controller configuration: `maxSteps` (line 322, `?? 1`),
`keepLastMessageOnError` (line 300, `?? true`), and whether the user's
`onError` callback throws when invoked (lines 312-315). -/
structure Config where
  maxSteps : Option Nat
  keepLastMessageOnError : Option Bool
  onErrorThrows : Bool
  deriving DecidableEq, Repr

/-- Observable controller state: the cache-backed message list (with
`messagesRef` as its synchronous mirror), the `error` signal, the
`isLoading` signal, and whether `abortController` is non-null. -/
structure ChatState where
  messages : List Message
  error : Option String
  isLoading : Bool
  abortHandle : Bool
  deriving DecidableEq, Repr

/-- The start of `triggerRequest` (lines 279-282): clear the error, set
loading, install a fresh `AbortController`. -/
def beginRequest (st : ChatState) : ChatState :=
  { st with error := none, isLoading := true, abortHandle := true }

/-- The auto-continuation guard of `triggerRequest` (lines 327-343),
evaluated on the post-request list `messages`:
a last message exists; the list grew past `messageCount` or the last
message's maximum tool-invocation step differs from `maxStep`;
`maxSteps > 1`; the last message is an assistant message with completed
tool calls; its content is empty; and its maximum step is below
`maxSteps`. -/
def shouldAutoContinue (maxSteps messageCount : Nat) (maxStep : Option Nat)
    (messages : List Message) : Bool :=
  match messages.getLast? with
  | none => false
  | some lastMessage =>
      (decide (messages.length > messageCount) ||
        decide (extractMaxToolInvocationStep lastMessage.toolInvocations ≠ maxStep)) &&
      decide (maxSteps > 1) &&
      isAssistantMessageWithCompletedToolCalls lastMessage &&
      lastMessage.content == "" &&
      decide ((extractMaxToolInvocationStep lastMessage.toolInvocations).getD 0 < maxSteps)

/-- What the promise returned by `triggerRequest` settles to: `null` (abort,
line 309), `undefined` (fall-through return), a message id string (the
declared type allows it), or a rethrown failure (when `onError` throws). -/
inductive ReqValue where
  | nullV
  | undefV
  | idV (s : String)
  | thrownV (err : String)
  deriving DecidableEq, Repr

/-- Result of one invocation of `triggerRequest`, excluding the recursive
auto-continuation call: the state it leaves, the settled value, and the
message list of the continuation request when the guard fired. -/
structure StepResult where
  state : ChatState
  value : ReqValue
  continuation : Option (List Message)
  deriving DecidableEq, Repr

/-- One invocation of `triggerRequest` (lines 272-346) without the recursive
call:
1. record `messageCount` and `maxStep` (lines 273-276);
2. clear error, set loading, fresh abort controller (lines 279-282);
3. run `processStreamedResponse` (lines 284-302);
4. on success clear the abort controller (line 304); on `AbortError` clear
   it and return `null` (lines 307-310); on other failures call `onError`
   (rethrowing if it throws) and record the error (lines 312-317);
5. `finally`: clear loading (lines 318-320);
6. except on abort or rethrow, evaluate the auto-continuation guard
   (lines 322-345). -/
def triggerRequestOnce (cfg : Config) (transport : Transport) (st : ChatState)
    (reqMessages : List Message) : StepResult :=
  let messageCount := st.messages.length
  let maxStep := extractMaxToolInvocationStep
    ((reqMessages.getLast?).bind Message.toolInvocations)
  let st1 := beginRequest st
  let proc := processStreamedResponse (cfg.keepLastMessageOnError.getD true) transport
    st1.messages reqMessages
  let published := lastPublished proc.1 st1.messages
  match proc.2 with
  | .ok =>
      let st2 := { st1 with messages := published, abortHandle := false, isLoading := false }
      { state := st2
        value := .undefV
        continuation :=
          if shouldAutoContinue (cfg.maxSteps.getD 1) messageCount maxStep st2.messages
          then some st2.messages else none }
  | .abortError =>
      let st2 := { st1 with messages := published, abortHandle := false, isLoading := false }
      { state := st2, value := .nullV, continuation := none }
  | .errored err =>
      if cfg.onErrorThrows then
        { state := { st1 with messages := published, isLoading := false }
          value := .thrownV err
          continuation := none }
      else
        let st2 := { st1 with messages := published, error := some err, isLoading := false }
        { state := st2
          value := .undefV
          continuation :=
            if shouldAutoContinue (cfg.maxSteps.getD 1) messageCount maxStep st2.messages
            then some st2.messages else none }

/-- `triggerRequest` with its auto-continuation recursion (line 344), bounded
by fuel (the recursion has no intrinsic bound).  Returns the final state, the
log of request message lists issued, and the settled value of the outermost
invocation (the recursive call's value is discarded, but a rethrown failure
propagates). -/
def triggerRequest (cfg : Config) (transport : Transport) :
    Nat → ChatState → List Message → ChatState × List (List Message) × ReqValue
  | 0, st, _ => (st, [], .undefV)
  | fuel + 1, st, reqMessages =>
      let r := triggerRequestOnce cfg transport st reqMessages
      match r.continuation with
      | none => (r.state, [reqMessages], r.value)
      | some nextMessages =>
          let rec1 := triggerRequest cfg transport fuel r.state nextMessages
          (rec1.1, reqMessages :: rec1.2.1,
            match rec1.2.2 with
            | .thrownV err => .thrownV err
            | _ => r.value)

/-- `append` (lines 348-369): concatenate the new message (its id already
assigned; attachment resolution, an external collaborator, is elided) onto
`messagesRef` and trigger a request. -/
def append (cfg : Config) (transport : Transport) (fuel : Nat) (st : ChatState)
    (message : Message) : ChatState × List (List Message) × ReqValue :=
  triggerRequest cfg transport fuel st (st.messages ++ [message])

/-- `reload` (lines 371-391): `null` on an empty history; otherwise re-trigger
with the history, dropping a trailing assistant message. -/
def reload (cfg : Config) (transport : Transport) (fuel : Nat) (st : ChatState) :
    ChatState × List (List Message) × ReqValue :=
  match st.messages.getLast? with
  | none => (st, [], .nullV)
  | some lastMessage =>
      triggerRequest cfg transport fuel st
        (if lastMessage.role == .assistant then st.messages.dropLast else st.messages)

/-! ## `addToolResult` (lines 470-506) -/

/-- The per-message rewrite of `addToolResult` (lines 481-496), applied to
the last element of the snapshot: when the message is an assistant message
with a tool-invocation list, transition every invocation whose `toolCallId`
matches to `state = result` with the given result. -/
def applyToolResultToMessage (toolCallId : String) (result : String)
    (message : Message) : Message :=
  match message.toolInvocations with
  | some toolInvocations =>
      if message.role == .assistant then
        { message with
            toolInvocations := some (toolInvocations.map fun toolInvocation =>
              if toolInvocation.toolCallId == toolCallId then
                { toolInvocation with result := some result, state := .result }
              else toolInvocation) }
      else message
  | none => message

/-- The list rewrite of `addToolResult` (lines 479-497): map over the
snapshot, rewriting only the element at index `length - 1`. -/
def addToolResultUpdate (messages : List Message) (toolCallId : String)
    (result : String) : List Message :=
  messages.mapIdx fun index message =>
    if index = messages.length - 1 then
      applyToolResultToMessage toolCallId result message
    else message

/-- `addToolResult` (lines 470-506): the written list, paired with whether a
continuation request is triggered (lines 502-505: the last message of the
updated list is an assistant message with completed tool calls). -/
def addToolResult (messages : List Message) (toolCallId : String)
    (result : String) : List Message × Bool :=
  let updatedMessages := addToolResultUpdate messages toolCallId result
  (updatedMessages,
    match updatedMessages.getLast? with
    | none => false
    | some lastMessage => isAssistantMessageWithCompletedToolCalls lastMessage)

/-! ## Session cache sharing (`chatCache` / `chatKey`, lines 205-244) -/

/-- Modelled from the spec (§4.1): the process-wide `ReactiveLRU` session
cache (`utils/reactive-lru.ts`, not under `src/`): a bounded-size store
evicting the least-recently-used key when the bound is exceeded.  The
promotion of a key on read affects only eviction order, never lookup
results, and is elided. -/
structure ReactiveLRU (K V : Type) where
  entries : List (K × V)
  capacity : Nat
  deriving Repr

/-- Modelled from the spec (§4.1): cache lookup; a missing key yields
"absent". -/
def ReactiveLRU.get [BEq K] (cache : ReactiveLRU K V) (key : K) : Option V :=
  (cache.entries.find? fun e => e.1 == key).map fun e => e.2

/-- Modelled from the spec (§4.1): cache write; the key becomes the most
recently used, and the least-recently-used entry is dropped when the bound
is exceeded. -/
def ReactiveLRU.set [BEq K] (cache : ReactiveLRU K V) (key : K) (value : V) :
    ReactiveLRU K V :=
  { cache with
      entries := ((key, value) :: cache.entries.filter fun e => !(e.1 == key)).take
        cache.capacity }

/-- `chatKey` (line 230): the session key derived from the endpoint address
and the chat id. -/
def chatKey (api chatId : String) : String :=
  s!"{api}|{chatId}|messages"

/-- The `_messages` memo (lines 232-235): the cache entry for the
controller's key, falling back to the controller's initial messages, then to
the empty list. -/
def observedMessages (cache : ReactiveLRU String (List Message)) (api chatId : String)
    (initialMessages : Option (List Message)) : List Message :=
  ((cache.get (chatKey api chatId)).getD (initialMessages.getD []))

/-- `setMessages` (lines 400-409) in its direct-replacement form: write the
list through to the shared cache under the controller's key. -/
def setMessages (cache : ReactiveLRU String (List Message)) (api chatId : String)
    (messages : List Message) : ReactiveLRU String (List Message) :=
  cache.set (chatKey api chatId) messages

/-! ## The spec's wording of the auto-continuation guard (claim C1)

The claim states the second guard as "the last message's maximum
tool-invocation step **advanced beyond** `stepBefore`", while the source
(line 332) tests mere difference (`!==`).  The claim's wording is kept here
as a separate definition so the two can be compared. -/

/-- The claim's "step advanced beyond stepBefore": the new maximum step
exists and exceeds the old one (any present step counts as advanced past an
absent one). -/
def stepAdvancedBeyond (stepBefore stepAfter : Option Nat) : Bool :=
  match stepBefore, stepAfter with
  | _, none => false
  | none, some _ => true
  | some before, some after => decide (before < after)

/-- The auto-continuation guard as claim C1 words it: identical to
`shouldAutoContinue` except that the step clause requires the step to have
advanced beyond `maxStep` rather than merely differ from it. -/
def claimAutoContinueCond (maxSteps messageCount : Nat) (maxStep : Option Nat)
    (messages : List Message) : Bool :=
  match messages.getLast? with
  | none => false
  | some lastMessage =>
      (decide (messages.length > messageCount) ||
        stepAdvancedBeyond maxStep
          (extractMaxToolInvocationStep lastMessage.toolInvocations)) &&
      decide (maxSteps > 1) &&
      isAssistantMessageWithCompletedToolCalls lastMessage &&
      lastMessage.content == "" &&
      decide ((extractMaxToolInvocationStep lastMessage.toolInvocations).getD 0 < maxSteps)

/-! ## Concrete fixtures -/

/-- A user message `U1`. -/
def u1 : Message :=
  { id := "u1", createdAt := 0, role := .user, content := "hi", toolInvocations := none }

/-- A user message `U2`. -/
def u2 : Message :=
  { id := "u2", createdAt := 1, role := .user, content := "again", toolInvocations := none }

/-- A partially streamed assistant message. -/
def partialAssistant : Message :=
  { id := "a-partial", createdAt := 2, role := .assistant, content := "Hel",
    toolInvocations := none }

/-- A resolved tool invocation at the given step. -/
def resolvedInvocation (step : Nat) : ToolInvocation :=
  { state := .result, toolCallId := "t1", toolName := "tool", args := "{}",
    step := some step, result := some "r" }

/-- An empty-content assistant message whose single tool invocation is
resolved at the given step. -/
def resolvedAssistant (step : Nat) : Message :=
  { id := "a-step", createdAt := 3, role := .assistant, content := "",
    toolInvocations := some [resolvedInvocation step] }

/-- Default configuration: no options set. -/
def defaultConfig : Config :=
  { maxSteps := none, keepLastMessageOnError := none, onErrorThrows := false }

/-- An idle controller state holding the given messages. -/
def idleState (messages : List Message) : ChatState :=
  { messages := messages, error := none, isLoading := false, abortHandle := false }

/-- Simulated transport for the bounded-continuation scenario: every request
is answered by appending one assistant message whose single tool invocation
is already resolved, at a step one past the request's last maximum step. -/
def simTransport : Transport := fun reqMessages =>
  .success [⟨resolvedAssistant
    ((extractMaxToolInvocationStep
        ((reqMessages.getLast?).bind Message.toolInvocations)).getD 0 + 1), false⟩]

/-- Transport refuting claim C1's "advanced beyond" wording: it replaces the
request's last message (which carries step 5) by a resolved assistant
message whose step counter went back to 0. -/
def regressTransport : Transport := fun _ =>
  .success [⟨resolvedAssistant 0, true⟩]

/-- Transport that always fails after streaming a partial assistant
message. -/
def failingTransport : Transport := fun _ =>
  .failure [⟨partialAssistant, false⟩] "network error"

/-- Transport that is aborted after streaming a partial assistant
message. -/
def abortingTransport : Transport := fun _ =>
  .aborted [⟨partialAssistant, false⟩]

/-! ## Helper lemmas -/

lemma filterMap_publishedList_map (req : List Message) (us : List Update) :
    (us.map fun u => Ev.publish (applyUpdate req u)).filterMap publishedList =
      us.map (applyUpdate req) := by
  induction us with
  | nil => rfl
  | cons u us ih => simp [publishedList, ih]

lemma lastPublished_stream (req prev : List Message) (us : List Update) :
    lastPublished (Ev.publish req :: Ev.netCall req ::
      us.map fun u => Ev.publish (applyUpdate req u)) prev = streamedList req us := by
  unfold lastPublished streamedList
  rw [List.filterMap_cons, List.filterMap_cons]
  simp only [publishedList, filterMap_publishedList_map]
  rcases us.eq_nil_or_concat with h | ⟨l, u, h⟩ <;> subst h
  · rfl
  · simp only [List.concat_eq_append]
    rw [List.getLast?_concat]
    have : (req :: (l ++ [u]).map (applyUpdate req)) =
        (req :: l.map (applyUpdate req)) ++ [applyUpdate req u] := by simp
    rw [this, List.getLast?_concat]
    rfl

lemma lastPublished_restore (req prev fallback : List Message) (us : List Update) :
    lastPublished (Ev.publish req :: Ev.netCall req ::
      ((us.map fun u => Ev.publish (applyUpdate req u)) ++ [Ev.publish prev]))
      fallback = prev := by
  unfold lastPublished
  rw [List.filterMap_cons, List.filterMap_cons]
  simp only [publishedList, List.filterMap_append, filterMap_publishedList_map]
  have : (req :: (us.map (applyUpdate req) ++ [Ev.publish prev].filterMap publishedList)) =
      (req :: us.map (applyUpdate req)) ++ [prev] := by
    simp [publishedList]
  rw [this, List.getLast?_concat]
  rfl

/-- The step-before value recorded by `triggerRequest` (lines 274-276). -/
def stepBeforeOf (reqMessages : List Message) : Option Nat :=
  extractMaxToolInvocationStep ((reqMessages.getLast?).bind Message.toolInvocations)

lemma triggerRequestOnce_success {transport : Transport} {reqMessages : List Message}
    {us : List Update} (cfg : Config) (st : ChatState)
    (h : transport reqMessages = .success us) :
    triggerRequestOnce cfg transport st reqMessages =
      { state := { messages := streamedList reqMessages us, error := none,
                   isLoading := false, abortHandle := false }
        value := .undefV
        continuation :=
          if shouldAutoContinue (cfg.maxSteps.getD 1) st.messages.length
              (stepBeforeOf reqMessages) (streamedList reqMessages us)
          then some (streamedList reqMessages us) else none } := by
  unfold triggerRequestOnce processStreamedResponse stepBeforeOf beginRequest
  rw [h]
  simp [lastPublished_stream]

lemma triggerRequestOnce_aborted {transport : Transport} {reqMessages : List Message}
    {us : List Update} (cfg : Config) (st : ChatState)
    (h : transport reqMessages = .aborted us) :
    triggerRequestOnce cfg transport st reqMessages =
      { state := { messages := streamedList reqMessages us, error := none,
                   isLoading := false, abortHandle := false }
        value := .nullV
        continuation := none } := by
  unfold triggerRequestOnce processStreamedResponse beginRequest
  rw [h]
  simp [lastPublished_stream]

lemma triggerRequestOnce_failure {transport : Transport} {reqMessages : List Message}
    {us : List Update} {err : String} (cfg : Config) (st : ChatState)
    (h : transport reqMessages = .failure us err)
    (hthrow : cfg.onErrorThrows = false) :
    triggerRequestOnce cfg transport st reqMessages =
      let streamed := if cfg.keepLastMessageOnError.getD true
        then streamedList reqMessages us else st.messages
      { state := { messages := streamed, error := some err,
                   isLoading := false, abortHandle := true }
        value := .undefV
        continuation :=
          if shouldAutoContinue (cfg.maxSteps.getD 1) st.messages.length
              (stepBeforeOf reqMessages) streamed
          then some streamed else none } := by
  unfold triggerRequestOnce processStreamedResponse stepBeforeOf beginRequest
  rw [h]
  cases hk : cfg.keepLastMessageOnError.getD true <;>
    simp [hk, hthrow, lastPublished_stream, lastPublished_restore]

lemma triggerRequestOnce_isLoading (cfg : Config) (transport : Transport)
    (st : ChatState) (reqMessages : List Message) :
    (triggerRequestOnce cfg transport st reqMessages).state.isLoading = false := by
  unfold triggerRequestOnce
  cases h : transport reqMessages <;>
    simp [processStreamedResponse, h, beginRequest]
  cases cfg.onErrorThrows <;> simp

lemma isAssistantMessageWithCompletedToolCalls_iff (message : Message) :
    isAssistantMessageWithCompletedToolCalls message = true ↔
      message.role = .assistant ∧
        ∃ tis, message.toolInvocations = some tis ∧ tis ≠ [] ∧
          ∀ ti ∈ tis, ti.result.isSome = true := by
  unfold isAssistantMessageWithCompletedToolCalls
  cases h : message.toolInvocations with
  | none => simp [h]
  | some tis =>
      simp [h, List.all_eq_true, List.length_pos, and_assoc]

lemma shouldAutoContinue_iff (maxSteps messageCount : Nat) (maxStep : Option Nat)
    (messages : List Message) :
    shouldAutoContinue maxSteps messageCount maxStep messages = true ↔
      ∃ lastMessage, messages.getLast? = some lastMessage ∧
        (messageCount < messages.length ∨
          extractMaxToolInvocationStep lastMessage.toolInvocations ≠ maxStep) ∧
        1 < maxSteps ∧
        lastMessage.role = .assistant ∧
        (∃ tis, lastMessage.toolInvocations = some tis ∧ tis ≠ [] ∧
          ∀ ti ∈ tis, ti.result.isSome = true) ∧
        lastMessage.content = "" ∧
        (extractMaxToolInvocationStep lastMessage.toolInvocations).getD 0 < maxSteps := by
  unfold shouldAutoContinue
  cases h : messages.getLast? with
  | none => simp
  | some lastMessage =>
      simp only [Bool.and_eq_true, Bool.or_eq_true, decide_eq_true_eq, beq_iff_eq,
        isAssistantMessageWithCompletedToolCalls_iff, Option.some.injEq,
        exists_eq_left', gt_iff_lt]
      tauto

lemma addToolResultUpdate_concat (xs : List Message) (m : Message)
    (toolCallId result : String) :
    addToolResultUpdate (xs ++ [m]) toolCallId result =
      xs ++ [applyToolResultToMessage toolCallId result m] := by
  unfold addToolResultUpdate
  rw [List.mapIdx_append_one]
  congr 1
  · apply List.ext_get (by simp)
    intro i h1 h2
    rw [List.get_mapIdx xs _ i h2]
    have hne : ¬ i = (xs ++ [m]).length - 1 := by
      simp only [List.length_append, List.length_singleton]
      omega
    rw [if_neg hne]
  · have heq : xs.length = (xs ++ [m]).length - 1 := by simp
    simp [← heq]

lemma applyToolResultToMessage_not_assistant (toolCallId result : String)
    (m : Message) (h : ¬ (m.role = .assistant ∧ m.toolInvocations.isSome = true)) :
    applyToolResultToMessage toolCallId result m = m := by
  unfold applyToolResultToMessage
  cases h2 : m.toolInvocations with
  | none => rfl
  | some tis =>
      have : ¬ m.role = .assistant := fun hr => h ⟨hr, by simp [h2]⟩
      simp [this]

lemma applyToolResultToMessage_unmatched (toolCallId result : String)
    (m : Message)
    (h : ∀ tis, m.toolInvocations = some tis →
      ∀ ti ∈ tis, ti.toolCallId ≠ toolCallId) :
    applyToolResultToMessage toolCallId result m = m := by
  obtain ⟨mid, mca, mrole, mcontent, mti⟩ := m
  cases mti with
  | none => rfl
  | some tis =>
      have hmap : (tis.map fun toolInvocation =>
          if toolInvocation.toolCallId == toolCallId then
            { toolInvocation with result := some result, state := TIState.result }
          else toolInvocation) = tis := by
        conv_rhs => rw [← List.map_id tis]
        apply List.map_congr_left
        intro ti hti
        simp [h tis rfl ti hti]
      simp only [applyToolResultToMessage]
      rw [hmap]
      split <;> rfl

lemma triggerRequest_isLoading (cfg : Config) (transport : Transport) :
    ∀ (fuel : Nat) (st : ChatState) (reqMessages : List Message),
      st.isLoading = false →
      (triggerRequest cfg transport fuel st reqMessages).1.isLoading = false := by
  intro fuel
  induction fuel with
  | zero => intro st req h; exact h
  | succ n ih =>
      intro st req _
      unfold triggerRequest
      cases hc : (triggerRequestOnce cfg transport st req).continuation with
      | none =>
          simpa [hc] using triggerRequestOnce_isLoading cfg transport st req
      | some nextMessages =>
          simp only [hc]
          exact ih _ _ (triggerRequestOnce_isLoading cfg transport st req)

lemma triggerRequestOnce_value_not_thrown (cfg : Config) (transport : Transport)
    (st : ChatState) (reqMessages : List Message)
    (h : cfg.onErrorThrows = false) :
    ∀ err, (triggerRequestOnce cfg transport st reqMessages).value ≠ .thrownV err := by
  intro err
  unfold triggerRequestOnce
  cases h2 : transport reqMessages <;>
    simp [processStreamedResponse, h2, beginRequest, h]

lemma triggerRequest_value_not_thrown (cfg : Config) (transport : Transport)
    (h : cfg.onErrorThrows = false) :
    ∀ (fuel : Nat) (st : ChatState) (reqMessages : List Message) (err : String),
      (triggerRequest cfg transport fuel st reqMessages).2.2 ≠ .thrownV err := by
  intro fuel
  induction fuel with
  | zero => intro st req err; simp [triggerRequest]
  | succ n ih =>
      intro st req err
      unfold triggerRequest
      cases hc : (triggerRequestOnce cfg transport st req).continuation with
      | none =>
          simpa [hc] using triggerRequestOnce_value_not_thrown cfg transport st req h err
      | some nextMessages =>
          simp only [hc]
          cases hv : (triggerRequest cfg transport n
              (triggerRequestOnce cfg transport st req).state nextMessages).2.2 with
          | thrownV e => exact absurd hv (ih _ _ e)
          | nullV =>
              simpa [hv] using triggerRequestOnce_value_not_thrown cfg transport st req h err
          | undefV =>
              simpa [hv] using triggerRequestOnce_value_not_thrown cfg transport st req h err
          | idV s =>
              simpa [hv] using triggerRequestOnce_value_not_thrown cfg transport st req h err

lemma triggerRequest_value_succ (cfg : Config) (transport : Transport)
    (fuel : Nat) (st : ChatState) (reqMessages : List Message)
    (h : cfg.onErrorThrows = false) :
    (triggerRequest cfg transport (fuel + 1) st reqMessages).2.2 =
      (triggerRequestOnce cfg transport st reqMessages).value := by
  simp only [triggerRequest]
  cases hc : (triggerRequestOnce cfg transport st reqMessages).continuation with
  | none => simp [hc]
  | some nextMessages =>
      simp only [hc]
      cases hv : (triggerRequest cfg transport fuel
          (triggerRequestOnce cfg transport st reqMessages).state nextMessages).2.2 with
      | thrownV e => exact absurd hv (triggerRequest_value_not_thrown cfg transport h _ _ _ e)
      | nullV => simp [hv]
      | undefV => simp [hv]
      | idV s => simp [hv]

/-! ## Claim C1 -/

/-- Configuration with `maxSteps = 3` for the bounded-continuation
scenario. -/
def maxSteps3Config : Config :=
  { maxSteps := some 3, keepLastMessageOnError := none, onErrorThrows := false }

/-- Configuration with `maxSteps = 2`. -/
def maxSteps2Config : Config :=
  { maxSteps := some 2, keepLastMessageOnError := none, onErrorThrows := false }

/-- C1 (amended): after a `triggerRequest` round settles without error or
abort, a continuation request — carrying the full updated message list — is
issued iff: a last message exists; the list grew past `messageCountBefore`
or the last message's maximum tool-invocation step *differs from*
`stepBefore` (the source tests `!==`, not "advanced beyond"); `maxSteps`
(default 1) exceeds 1; the last message is an assistant message with at
least one tool invocation, all carrying results; its content is empty; and
its maximum step is strictly below `maxSteps`.  With `maxSteps = 3` and a
transport that answers every request by appending an assistant message with
one resolved tool call, exactly 3 rounds of requests are issued. -/
theorem c1_auto_continuation :
    (∀ (cfg : Config) (transport : Transport) (st : ChatState)
        (reqMessages : List Message) (us : List Update),
      transport reqMessages = .success us →
      (((triggerRequestOnce cfg transport st reqMessages).continuation.isSome = true ↔
          ∃ lastMessage,
            (triggerRequestOnce cfg transport st reqMessages).state.messages.getLast? =
              some lastMessage ∧
            (st.messages.length <
                (triggerRequestOnce cfg transport st reqMessages).state.messages.length ∨
              extractMaxToolInvocationStep lastMessage.toolInvocations ≠
                stepBeforeOf reqMessages) ∧
            1 < cfg.maxSteps.getD 1 ∧
            lastMessage.role = .assistant ∧
            (∃ tis, lastMessage.toolInvocations = some tis ∧ tis ≠ [] ∧
              ∀ ti ∈ tis, ti.result.isSome = true) ∧
            lastMessage.content = "" ∧
            (extractMaxToolInvocationStep lastMessage.toolInvocations).getD 0 <
              cfg.maxSteps.getD 1) ∧
        ∀ c, (triggerRequestOnce cfg transport st reqMessages).continuation = some c →
          c = (triggerRequestOnce cfg transport st reqMessages).state.messages)) ∧
    (triggerRequest maxSteps3Config simTransport 10 (idleState [u1]) [u1]).2.1.length = 3 := by
  constructor
  · intro cfg transport st reqMessages us h
    rw [triggerRequestOnce_success cfg st h]
    simp only
    constructor
    · have hiff : ((if shouldAutoContinue (cfg.maxSteps.getD 1) st.messages.length
          (stepBeforeOf reqMessages) (streamedList reqMessages us)
          then some (streamedList reqMessages us) else none).isSome = true) ↔
          shouldAutoContinue (cfg.maxSteps.getD 1) st.messages.length
            (stepBeforeOf reqMessages) (streamedList reqMessages us) = true := by
        cases shouldAutoContinue (cfg.maxSteps.getD 1) st.messages.length
          (stepBeforeOf reqMessages) (streamedList reqMessages us) <;> simp
      exact hiff.trans (shouldAutoContinue_iff _ _ _ _)
    · intro c hc
      split at hc
      · injection hc with h'
        exact h'.symm
      · cases hc
  · decide

/-- Witness for C1's general part, at the first round of the simulated
scenario: the round over history `[u1]` does issue a continuation. -/
theorem c1_auto_continuation_witness :
    (triggerRequestOnce maxSteps3Config simTransport (idleState [u1]) [u1]).continuation.isSome =
      true := by
  have h := (c1_auto_continuation.1 maxSteps3Config simTransport (idleState [u1]) [u1]
    [⟨resolvedAssistant 1, false⟩] rfl).1
  exact h.mpr ⟨resolvedAssistant 1, by decide, Or.inl (by decide), by decide, rfl,
    ⟨[resolvedInvocation 1], rfl, by decide, by decide⟩, rfl, by decide⟩

/-- C1 as literally stated is false: with `maxSteps = 2`, a round over the
single-message history `[resolvedAssistant 5]` that replaces the last
message by a resolved assistant message whose step counter went *back* to 0
(list did not grow, step did not advance beyond `stepBefore = 5`) still
issues a continuation, because the source only tests that the step
differs. -/
theorem c1_counterexample :
    (triggerRequestOnce maxSteps2Config regressTransport
        (idleState [resolvedAssistant 5]) [resolvedAssistant 5]).continuation =
      some [resolvedAssistant 0] ∧
    claimAutoContinueCond (maxSteps2Config.maxSteps.getD 1)
      (idleState [resolvedAssistant 5]).messages.length
      (stepBeforeOf [resolvedAssistant 5])
      (triggerRequestOnce maxSteps2Config regressTransport
        (idleState [resolvedAssistant 5]) [resolvedAssistant 5]).state.messages = false := by
  decide

/-! ## Claims C2 and C3 -/

/-- Configuration with `keepLastMessageOnError` explicitly disabled. -/
def keepFalseConfig : Config :=
  { maxSteps := none, keepLastMessageOnError := some false, onErrorThrows := false }

/-- C2: on a non-abort transport failure the error is recorded in the
`error` field, and the message list is rolled back to the pre-request
snapshot unless `keepLastMessageOnError` (default true) is set, in which
case the partially-updated list is kept.  Concretely, from `[u1]`,
`append u2` against a failing transport leaves `[u1]` with the flag false
and `[u1, u2, partialAssistant]` with the default. -/
theorem c2_failure_rollback :
    (∀ (cfg : Config) (transport : Transport) (st : ChatState)
        (reqMessages : List Message) (us : List Update) (err : String),
      cfg.onErrorThrows = false →
      transport reqMessages = .failure us err →
      (triggerRequestOnce cfg transport st reqMessages).state.error = some err ∧
      (triggerRequestOnce cfg transport st reqMessages).state.messages =
        (if cfg.keepLastMessageOnError.getD true
         then streamedList reqMessages us else st.messages)) ∧
    (append keepFalseConfig failingTransport 5 (idleState [u1]) u2).1.messages = [u1] ∧
    (append defaultConfig failingTransport 5 (idleState [u1]) u2).1.messages =
      [u1, u2, partialAssistant] := by
  refine ⟨?_, by decide, by decide⟩
  intro cfg transport st reqMessages us err hthrow h
  rw [triggerRequestOnce_failure cfg st h hthrow]
  simp

/-- Witness for C2's general part: a failing request over `[u1, u2]` with
the default configuration records the error and keeps the partial list. -/
theorem c2_failure_rollback_witness :
    (triggerRequestOnce defaultConfig failingTransport (idleState [u1]) [u1, u2]).state.error =
      some "network error" ∧
    (triggerRequestOnce defaultConfig failingTransport (idleState [u1]) [u1, u2]).state.messages =
      [u1, u2, partialAssistant] := by
  have h := c2_failure_rollback.1 defaultConfig failingTransport (idleState [u1]) [u1, u2]
    [⟨partialAssistant, false⟩] "network error" rfl rfl
  exact ⟨h.1, by rw [h.2]; decide⟩

/-- C3: an aborted request is treated as clean completion: no error is set,
loading is cleared, the streamed content is kept (no rollback), the abort
handle is cleared, no continuation request is issued, and the promise
settles to `null`. -/
theorem c3_abort_clean :
    ∀ (cfg : Config) (transport : Transport) (st : ChatState)
      (reqMessages : List Message) (us : List Update),
      transport reqMessages = .aborted us →
      (triggerRequestOnce cfg transport st reqMessages).state.error = none ∧
      (triggerRequestOnce cfg transport st reqMessages).state.isLoading = false ∧
      (triggerRequestOnce cfg transport st reqMessages).state.messages =
        streamedList reqMessages us ∧
      (triggerRequestOnce cfg transport st reqMessages).state.abortHandle = false ∧
      (triggerRequestOnce cfg transport st reqMessages).continuation = none ∧
      (triggerRequestOnce cfg transport st reqMessages).value = .nullV := by
  intro cfg transport st reqMessages us h
  rw [triggerRequestOnce_aborted cfg st h]
  exact ⟨rfl, rfl, rfl, rfl, rfl, rfl⟩

/-- Witness for C3: an aborted request over `[u1, u2]` sets no error, keeps
the partial assistant message, and issues no continuation. -/
theorem c3_abort_clean_witness :
    (triggerRequestOnce defaultConfig abortingTransport (idleState [u1]) [u1, u2]).state.error =
      none ∧
    (triggerRequestOnce defaultConfig abortingTransport (idleState [u1]) [u1, u2]).state.messages =
      [u1, u2, partialAssistant] ∧
    (triggerRequestOnce defaultConfig abortingTransport (idleState [u1]) [u1, u2]).continuation =
      none := by
  have h := c3_abort_clean defaultConfig abortingTransport (idleState [u1]) [u1, u2]
    [⟨partialAssistant, false⟩] rfl
  exact ⟨h.1, by rw [h.2.2.1]; decide, h.2.2.2.2.1⟩

/-! ## Claim C4 -/

/-- C4: two controllers constructed with the same endpoint address and
session id derive the same session key, so after either one writes through
`setMessages`, both observe the written list through the shared cache,
whatever their respective initial messages. -/
theorem c4_cache_sharing :
    ∀ (cache : ReactiveLRU String (List Message)) (api chatId : String)
      (init1 init2 : Option (List Message)) (messages : List Message),
      0 < cache.capacity →
      observedMessages (setMessages cache api chatId messages) api chatId init1 = messages ∧
      observedMessages (setMessages cache api chatId messages) api chatId init2 = messages := by
  intro cache api chatId init1 init2 messages hcap
  have hget : (ReactiveLRU.set cache (chatKey api chatId) messages).get
      (chatKey api chatId) = some messages := by
    unfold ReactiveLRU.set ReactiveLRU.get
    obtain ⟨n, hn⟩ : ∃ n, cache.capacity = n + 1 := ⟨cache.capacity - 1, by omega⟩
    rw [hn]
    simp [List.take_succ_cons, List.find?]
  constructor <;> simp [observedMessages, setMessages, hget]

/-- Witness for C4 at a concrete cache of capacity 10 and distinct initial
message lists. -/
theorem c4_cache_sharing_witness :
    observedMessages (setMessages ⟨[], 10⟩ "/api/chat" "chat-1" [u1, u2]) "/api/chat" "chat-1"
      none = [u1, u2] ∧
    observedMessages (setMessages ⟨[], 10⟩ "/api/chat" "chat-1" [u1, u2]) "/api/chat" "chat-1"
      (some [u1]) = [u1, u2] := by
  exact c4_cache_sharing ⟨[], 10⟩ "/api/chat" "chat-1" none (some [u1]) [u1, u2] (by decide)

/-! ## Claims C5 and C6 -/

/-- A still-unresolved tool call with id `t1`. -/
def callInvocation : ToolInvocation :=
  { state := .call, toolCallId := "t1", toolName := "tool", args := "{}",
    step := some 0, result := none }

/-- An assistant message carrying one still-unresolved tool call with id
`t1`. -/
def callAssistant : Message :=
  { id := "a-call", createdAt := 4, role := .assistant, content := "",
    toolInvocations := some [callInvocation] }

/-- C5 as stated is false: when the last message's tool invocations are
already all resolved, a call with a `toolCallId` matching no invocation
leaves the list unchanged (the write is a no-op) and yet still triggers a
continuation request — the source tests only the post-write state, not
whether this call caused completion. -/
theorem c5_counterexample :
    (addToolResult [resolvedAssistant 1] "missing" "res").1 = [resolvedAssistant 1] ∧
    (addToolResult [resolvedAssistant 1] "missing" "res").2 = true ∧
    ((resolvedAssistant 1).toolInvocations.getD []).all
      (fun toolInvocation => toolInvocation.result.isSome) = true := by
  decide

/-- C5 (amended): `addToolResult` triggers a continuation request iff after
the write the last message is an assistant message with at least one tool
invocation, every invocation carrying a result — whether or not this call's
write produced that state; in particular an unmatched `toolCallId` still
triggers a request when the last message already satisfies it. -/
theorem c5_trigger_iff :
    ∀ (messages : List Message) (toolCallId result : String),
      ((addToolResult messages toolCallId result).2 = true ↔
        ∃ lastMessage,
          (addToolResult messages toolCallId result).1.getLast? = some lastMessage ∧
          lastMessage.role = .assistant ∧
          ∃ tis, lastMessage.toolInvocations = some tis ∧ tis ≠ [] ∧
            ∀ ti ∈ tis, ti.result.isSome = true) := by
  intro messages toolCallId result
  unfold addToolResult
  simp only
  cases h : (addToolResultUpdate messages toolCallId result).getLast? with
  | none => simp [h]
  | some lastMessage =>
      simp [h, isAssistantMessageWithCompletedToolCalls_iff]

/-- C6: `addToolResult`'s write rewrites only the last message, and only
when it is an assistant message with a tool-invocation list; matching
invocations transition to state `result` with the given result; every
earlier message is unchanged; and when the `toolCallId` matches nothing in
the last message — in particular when it occurs only in an earlier
message — the list is returned unchanged. -/
theorem c6_frame :
    ∀ (messages : List Message) (toolCallId result : String),
      (addToolResultUpdate messages toolCallId result).length = messages.length ∧
      (∀ i, i + 1 < messages.length →
        (addToolResultUpdate messages toolCallId result)[i]? = messages[i]?) ∧
      (∀ lastMessage, messages.getLast? = some lastMessage →
        ¬(lastMessage.role = .assistant ∧ lastMessage.toolInvocations.isSome = true) →
        addToolResultUpdate messages toolCallId result = messages) ∧
      (∀ lastMessage tis, messages.getLast? = some lastMessage →
        lastMessage.role = .assistant → lastMessage.toolInvocations = some tis →
        (addToolResultUpdate messages toolCallId result).getLast? =
          some { lastMessage with
            toolInvocations := some (tis.map fun toolInvocation =>
              if toolInvocation.toolCallId == toolCallId then
                { toolInvocation with result := some result, state := TIState.result }
              else toolInvocation) }) ∧
      (∀ lastMessage, messages.getLast? = some lastMessage →
        (∀ tis, lastMessage.toolInvocations = some tis →
          ∀ ti ∈ tis, ti.toolCallId ≠ toolCallId) →
        addToolResultUpdate messages toolCallId result = messages) := by
  intro messages toolCallId result
  rcases messages.eq_nil_or_concat with hnil | ⟨xs, m, hcons⟩
  · subst hnil
    exact ⟨rfl, fun i hi => by simp at hi, fun l hl => by simp at hl,
      fun l tis hl => by simp at hl, fun l hl => by simp at hl⟩
  · subst hcons
    simp only [List.concat_eq_append]
    rw [addToolResultUpdate_concat]
    refine ⟨by simp, ?_, ?_, ?_, ?_⟩
    · intro i hi
      simp only [List.length_append, List.length_singleton] at hi
      rw [List.getElem?_append_left (by omega), List.getElem?_append_left (by omega)]
    · intro lastMessage hlast hno
      rw [List.getLast?_concat] at hlast
      injection hlast with hlast
      subst hlast
      rw [applyToolResultToMessage_not_assistant _ _ _ hno]
    · intro lastMessage tis hlast hrole htis
      rw [List.getLast?_concat] at hlast
      injection hlast with hlast
      subst hlast
      rw [List.getLast?_concat]
      unfold applyToolResultToMessage
      rw [htis]
      simp [hrole]
    · intro lastMessage hlast hno
      rw [List.getLast?_concat] at hlast
      injection hlast with hlast
      subst hlast
      rw [applyToolResultToMessage_unmatched _ _ _ hno]

/-- Witness for C6: the id `t1` occurs only in the first (non-last) message
of `[callAssistant, u2]`, so the write leaves the list unchanged. -/
theorem c6_frame_witness :
    addToolResultUpdate [callAssistant, u2] "t1" "res" = [callAssistant, u2] := by
  exact (c6_frame [callAssistant, u2] "t1" "res").2.2.2.2 u2 rfl
    (fun tis htis => Option.noConfusion htis)

/-! ## Claims C7 to C10 -/

lemma triggerRequest_log_head (cfg : Config) (transport : Transport) (fuel : Nat)
    (st : ChatState) (reqMessages : List Message) :
    (triggerRequest cfg transport (fuel + 1) st reqMessages).2.1.head? =
      some reqMessages := by
  simp only [triggerRequest]
  cases hc : (triggerRequestOnce cfg transport st reqMessages).continuation <;> simp [hc]

/-- C7: `reload` on an empty history settles to `null` without issuing any
request; otherwise the request it issues carries the history with a
trailing assistant message dropped, and the unchanged history when the last
message is not an assistant message. -/
theorem c7_reload :
    ∀ (cfg : Config) (transport : Transport) (fuel : Nat) (st : ChatState),
      (st.messages = [] →
        reload cfg transport (fuel + 1) st = (st, [], .nullV)) ∧
      (∀ lastMessage, st.messages.getLast? = some lastMessage →
        (reload cfg transport (fuel + 1) st).2.1.head? =
          some (if lastMessage.role == .assistant then st.messages.dropLast
            else st.messages)) := by
  intro cfg transport fuel st
  constructor
  · intro h
    unfold reload
    rw [h]
    rfl
  · intro lastMessage hlast
    unfold reload
    rw [hlast]
    exact triggerRequest_log_head cfg transport fuel st _

/-- Witness for C7 at concrete histories: empty history, `[u1, partialAssistant]`
(assistant message dropped), and `[u1]` (nothing dropped). -/
theorem c7_reload_witness :
    reload defaultConfig simTransport 1 (idleState []) = (idleState [], [], .nullV) ∧
    (reload defaultConfig simTransport 1 (idleState [u1, partialAssistant])).2.1.head? =
      some [u1] ∧
    (reload defaultConfig simTransport 1 (idleState [u1])).2.1.head? = some [u1] := by
  refine ⟨(c7_reload defaultConfig simTransport 0 (idleState [])).1 rfl, ?_, ?_⟩
  · have h := (c7_reload defaultConfig simTransport 0
      (idleState [u1, partialAssistant])).2 partialAssistant rfl
    rw [h]
    decide
  · have h := (c7_reload defaultConfig simTransport 0 (idleState [u1])).2 u1 rfl
    rw [h]
    decide

/-- C8: `triggerRequest` sets the loading flag (and clears the error) at the
start, and the loading flag is false on every exit path — success, transport
error, abort, and a throwing `onError` callback alike — for the single round
and for the full auto-continuation loop. -/
theorem c8_loading_finalization :
    ∀ (cfg : Config) (transport : Transport) (st : ChatState)
      (reqMessages : List Message) (fuel : Nat),
      (beginRequest st).isLoading = true ∧
      (beginRequest st).error = none ∧
      (triggerRequestOnce cfg transport st reqMessages).state.isLoading = false ∧
      (triggerRequest cfg transport (fuel + 1) st reqMessages).1.isLoading = false := by
  intro cfg transport st reqMessages fuel
  refine ⟨rfl, rfl, triggerRequestOnce_isLoading cfg transport st reqMessages, ?_⟩
  simp only [triggerRequest]
  cases hc : (triggerRequestOnce cfg transport st reqMessages).continuation with
  | none => simpa [hc] using triggerRequestOnce_isLoading cfg transport st reqMessages
  | some nextMessages =>
      simp only [hc]
      exact triggerRequest_isLoading cfg transport fuel _ nextMessages
        (triggerRequestOnce_isLoading cfg transport st reqMessages)

/-- C9: every request's trace opens with the optimistic publish of
`request.messages` (the cache write via `mutate`), immediately followed by
the network call — the publish always precedes any transport activity. -/
theorem c9_optimistic_first :
    ∀ (keepLastMessageOnError : Bool) (transport : Transport)
      (previousMessages reqMessages : List Message),
      ∃ rest, (processStreamedResponse keepLastMessageOnError transport
        previousMessages reqMessages).1 =
          Ev.publish reqMessages :: Ev.netCall reqMessages :: rest := by
  intro keep transport prev req
  unfold processStreamedResponse
  cases transport req <;> exact ⟨_, rfl⟩

lemma triggerRequestOnce_value_cases (cfg : Config) (transport : Transport)
    (st : ChatState) (reqMessages : List Message)
    (h : cfg.onErrorThrows = false) :
    ((triggerRequestOnce cfg transport st reqMessages).value = .nullV ∨
      (triggerRequestOnce cfg transport st reqMessages).value = .undefV) ∧
    ((triggerRequestOnce cfg transport st reqMessages).value = .nullV ↔
      ∃ us, transport reqMessages = .aborted us) := by
  unfold triggerRequestOnce
  cases h2 : transport reqMessages <;>
    simp [processStreamedResponse, h2, beginRequest, h]

/-- C10: the promise returned by `append` or `reload` never settles to an
assistant message id — `triggerRequest` discards the executor's return
value — and (with a non-throwing `onError`) settles to `null` exactly when
the request it issued was aborted, and to `undefined` in every other case. -/
theorem c10_return_value :
    ∀ (cfg : Config) (transport : Transport) (fuel : Nat) (st : ChatState)
      (message : Message),
      cfg.onErrorThrows = false →
      ((∀ s, (append cfg transport (fuel + 1) st message).2.2 ≠ .idV s) ∧
        ((append cfg transport (fuel + 1) st message).2.2 = .nullV ↔
          ∃ us, transport (st.messages ++ [message]) = .aborted us) ∧
        ((append cfg transport (fuel + 1) st message).2.2 = .nullV ∨
          (append cfg transport (fuel + 1) st message).2.2 = .undefV)) ∧
      ((∀ s, (reload cfg transport (fuel + 1) st).2.2 ≠ .idV s) ∧
        ((reload cfg transport (fuel + 1) st).2.2 = .nullV ∨
          (reload cfg transport (fuel + 1) st).2.2 = .undefV)) := by
  intro cfg transport fuel st message h
  constructor
  · have happ : (append cfg transport (fuel + 1) st message).2.2 =
        (triggerRequestOnce cfg transport st (st.messages ++ [message])).value :=
      triggerRequest_value_succ cfg transport fuel st (st.messages ++ [message]) h
    have hcases := triggerRequestOnce_value_cases cfg transport st
      (st.messages ++ [message]) h
    refine ⟨?_, ?_, ?_⟩
    · intro s
      rw [happ]
      rcases hcases.1 with h1 | h1 <;> simp [h1]
    · rw [happ]
      exact hcases.2
    · rw [happ]
      exact hcases.1
  · cases hlast : st.messages.getLast? with
    | none =>
        have hre : reload cfg transport (fuel + 1) st = (st, [], .nullV) := by
          unfold reload
          rw [hlast]
        rw [hre]
        exact ⟨fun s => by simp, Or.inl rfl⟩
    | some lastMessage =>
        have hre : (reload cfg transport (fuel + 1) st).2.2 =
            (triggerRequestOnce cfg transport st
              (if lastMessage.role == .assistant then st.messages.dropLast
                else st.messages)).value := by
          unfold reload
          rw [hlast]
          exact triggerRequest_value_succ cfg transport fuel st _ h
        have hcases := triggerRequestOnce_value_cases cfg transport st
          (if lastMessage.role == .assistant then st.messages.dropLast
            else st.messages) h
        refine ⟨?_, ?_⟩
        · intro s
          rw [hre]
          rcases hcases.1 with h1 | h1 <;> rw [h1] <;> simp
        · rw [hre]
          exact hcases.1

/-- Witness for C10: `append u2` over `[u1]` against the aborting transport
settles to `null`, and `reload` over `[u1]` settles to a non-id value. -/
theorem c10_return_value_witness :
    (append defaultConfig abortingTransport 1 (idleState [u1]) u2).2.2 = .nullV ∧
    ((reload defaultConfig abortingTransport 1 (idleState [u1])).2.2 = .nullV ∨
      (reload defaultConfig abortingTransport 1 (idleState [u1])).2.2 = .undefV) := by
  have h := c10_return_value defaultConfig abortingTransport 0 (idleState [u1]) u2 rfl
  exact ⟨h.1.2.1.mpr ⟨[⟨partialAssistant, false⟩], rfl⟩, h.2.2⟩

end UseChat
